import Mathlib

/-!
Shallow embedding of the snake-game core from src/snake_game.py.

Cells and directions are pairs of integers, exactly as the Python code
uses pairs of ints in pixel coordinates.  Python's `%` on a positive
modulus agrees with Lean's `Int.emod`, and Python's `//` on positive
operands agrees with integer division, so the arithmetic below is a
direct transcription of the source.
-/

namespace SnakeGame

/-- A grid cell, in pixel coordinates, as the Python code stores it. -/
abbrev Cell : Type := ℤ × ℤ

/-- A direction of movement: one of the four unit vectors. -/
abbrev Dir : Type := ℤ × ℤ

def SCREEN_WIDTH : ℤ := 640

def SCREEN_HEIGHT : ℤ := 480

def GRID_SIZE : ℤ := 20

def GRID_WIDTH : ℤ := SCREEN_WIDTH / GRID_SIZE

def GRID_HEIGHT : ℤ := SCREEN_HEIGHT / GRID_SIZE

def UP : Dir := (0, -1)

def DOWN : Dir := (0, 1)

def LEFT : Dir := (-1, 0)

def RIGHT : Dir := (1, 0)

def SPEED : ℕ := 20

/-- The mutable state of the `Snake` object (class `Snake` in the source).
`position` is the scalar field inherited from `GameObject`; `positions`
is the head-first body list. -/
structure Snake where
  position : Cell
  speed : ℕ
  paused : Bool
  game_over : Bool
  direction : Dir
  next_direction : Option Dir
  length : ℕ
  positions : List Cell
  last : Option Cell
deriving DecidableEq

/-- `Snake.__init__`: centered single-cell snake heading RIGHT. -/
def Snake.init : Snake :=
  { position := (SCREEN_WIDTH / 2, SCREEN_HEIGHT / 2)
    speed := SPEED
    paused := false
    game_over := false
    direction := RIGHT
    next_direction := none
    length := 1
    positions := [(SCREEN_WIDTH / 2, SCREEN_HEIGHT / 2)]
    last := none }

/-- `Snake.update_direction`: commit the pending direction if present. -/
def Snake.update_direction (s : Snake) : Snake :=
  match s.next_direction with
  | some d => { s with direction := d, next_direction := none }
  | none => s

/-- `Snake.is_game_over`: set the flag if the next position hits the body
at slice index 2 or beyond (`self.positions[2:]`). -/
def Snake.is_game_over (s : Snake) (next_position : Cell) : Snake :=
  if next_position ∈ s.positions.drop 2 then { s with game_over := true } else s

/-- `Snake.move`: commit the pending direction, then compute the next head
one cell ahead with wrap-around, returning the updated snake and the cell. -/
def Snake.move (s : Snake) : Snake × Cell :=
  let s1 := s.update_direction
  (s1, ((s1.position.1 + s1.direction.1 * GRID_SIZE) % SCREEN_WIDTH,
        (s1.position.2 + s1.direction.2 * GRID_SIZE) % SCREEN_HEIGHT))

/-- `Snake.insert_next_position`: set the scalar position and push it at the
front of the body list. -/
def Snake.insert_next_position (s : Snake) (next_position : Cell) : Snake :=
  { s with position := next_position, positions := next_position :: s.positions }

/-- `Snake.del_last_segment`: pop the tail cell into `last` when the live
body is longer than the target length. -/
def Snake.del_last_segment (s : Snake) : Snake :=
  if s.positions.length > s.length then
    { s with last := s.positions.getLast?, positions := s.positions.dropLast }
  else s

/-- `Snake.reset`: sets length, body, direction and `last` only.  The scalar
`position`, the `game_over` flag, the pending direction and the speed are
left untouched by the source. -/
def Snake.reset (s : Snake) : Snake :=
  { s with length := 1
           positions := [s.position]
           direction := RIGHT
           last := none }

/-- `Snake.get_head_position`: `self.positions[0]` (as an option, since
Python indexing would raise on an empty list). -/
def Snake.get_head_position (s : Snake) : Option Cell :=
  s.positions.head?

/-- `Snake.get_length`: `len(self.positions)`. -/
def Snake.get_length (s : Snake) : ℕ :=
  s.positions.length

/-- The eat-apple branch of `main` (lines 222-224): increment the target
length and bump the speed when it is still below 100. -/
def Snake.eat_apple (s : Snake) : Snake :=
  let s1 := { s with length := s.length + 1 }
  if s1.speed < 100 then { s1 with speed := s1.speed + 1 } else s1

/-- One driver tick on the snake (the body of the main loop, lines 216-224),
with the apple position as a parameter.  When the game is over or paused the
snake is untouched; otherwise move, collision check, insert, trim, and the
eat branch run in source order. -/
def driverStep (s : Snake) (apple : Cell) : Snake :=
  if s.game_over || s.paused then s
  else
    let m := s.move
    let s2 := m.1.is_game_over m.2
    let s3 := s2.insert_next_position m.2
    let s4 := s3.del_last_segment
    if s4.position = apple then s4.eat_apple else s4

/-- Input events reaching `handle_keys`: quit, the space key, the four
arrow keys, or any other key. -/
inductive Event where
  | quit
  | key_space
  | key_up
  | key_down
  | key_left
  | key_right
  | key_other

/-- The direction the key mapping in `handle_keys` assigns to an event. -/
def eventDir : Event → Option Dir
  | .key_up => some UP
  | .key_down => some DOWN
  | .key_left => some LEFT
  | .key_right => some RIGHT
  | _ => none

/-- The acceptance condition of `handle_keys` for a direction request. -/
def direction_change_ok (dir nd : Dir) : Prop :=
  (dir = UP ∧ nd ≠ DOWN) ∨ (dir = DOWN ∧ nd ≠ UP) ∨
    (dir = LEFT ∧ nd ≠ RIGHT) ∨ (dir = RIGHT ∧ nd ≠ LEFT)

instance (dir nd : Dir) : Decidable (direction_change_ok dir nd) := by
  unfold direction_change_ok
  infer_instance

/-- The effect of one KEYDOWN event in `handle_keys`: space toggles pause,
an arrow key stores the request when the acceptance condition holds,
anything else is a no-op. -/
def apply_key (s : Snake) : Event → Snake
  | .key_space => { s with paused := !s.paused }
  | e =>
    match eventDir e with
    | some nd =>
      if direction_change_ok s.direction nd then { s with next_direction := some nd }
      else s
    | none => s

/-- `handle_keys`: process the pending event list in order; QUIT returns
False immediately discarding the rest, every other event is applied via
`apply_key`. -/
def handle_keys_aux (s : Snake) : List Event → Bool × Snake
  | [] => (true, s)
  | Event.quit :: _ => (false, s)
  | e :: rest => handle_keys_aux (apply_key s e) rest

/-- The reverse of a direction vector. -/
def opposite (d : Dir) : Dir := (-d.1, -d.2)

/-- The four direction constants of the source. -/
def dirList : List Dir := [UP, DOWN, LEFT, RIGHT]

/-- `Apple.generate_new_position`, fuel-indexed: `draws j` is the pair
returned by the two `randint` calls of iteration `j` (each in
`[0, GRID_WIDTH-1]` resp. `[0, GRID_HEIGHT-1]`); the loop returns the
first candidate cell not occupied by the snake, and `none` means the
loop is still running after `fuel` iterations. -/
def generate_new_position (snake_positions : List Cell) (draws : ℕ → ℤ × ℤ) :
    ℕ → ℕ → Option Cell
  | _, 0 => none
  | k, fuel + 1 =>
    let new_position := ((draws k).1 * GRID_SIZE, (draws k).2 * GRID_SIZE)
    if new_position ∈ snake_positions then
      generate_new_position snake_positions draws (k + 1) fuel
    else
      some new_position

/-- All cells of the grid, in pixel coordinates. -/
def gridCells : List Cell :=
  (List.range GRID_WIDTH.toNat).flatMap fun (i : ℕ) =>
    (List.range GRID_HEIGHT.toNat).map fun (j : ℕ) =>
      (((i : ℤ)) * GRID_SIZE, ((j : ℤ)) * GRID_SIZE)

/-- A constant draw stream for concrete instantiations. -/
def constDraws : ℕ → ℤ × ℤ := fun _ => (0, 0)

/-- Modelled from the spec: the outcome type the spec assigns to
`FoodSpawner.placeAvoiding`, which is expected to report
`NoFreeCellError` on a fully-occupied grid.  The source has no such
error path; this type exists only to state the spec side of claim C3. -/
inductive PlaceResult where
  | cell (c : Cell)
  | noFreeCellError
deriving DecidableEq

/-- Modelled from the spec: `placeAvoiding` as the spec describes it for
claim C3 — on a fully-occupied grid it reports `NoFreeCellError`,
otherwise it returns some free cell. -/
def placeAvoidingSpec (occupied : List Cell) : PlaceResult :=
  if _ : ∀ c ∈ gridCells, c ∈ occupied then
    PlaceResult.noFreeCellError
  else
    match gridCells.find? (fun c => decide (c ∉ occupied)) with
    | some c => PlaceResult.cell c
    | none => PlaceResult.noFreeCellError

/-- A concrete driver run from the initial snake: eat three apples placed
just ahead, then turn DOWN, LEFT, UP so that the next RIGHT-facing cell of
the head is occupied by the body. -/
def sA : Snake := driverStep Snake.init (340, 240)

def sB : Snake := driverStep sA (360, 240)

def sC : Snake := driverStep sB (380, 240)

def sD : Snake := (handle_keys_aux sC [Event.key_down]).2

def sE : Snake := driverStep sD (0, 0)

def sF : Snake := (handle_keys_aux sE [Event.key_left]).2

def sG : Snake := driverStep sF (0, 0)

def sH : Snake := (handle_keys_aux sG [Event.key_up]).2

def sI : Snake := driverStep sH (0, 0)

/-- The states the driver loop can reach: the initial snake, followed by
any interleaving of `handle_keys` event batches, driver ticks (with an
arbitrary apple cell), and `reset` calls. -/
inductive Reachable : Snake → Prop where
  | init : Reachable Snake.init
  | handle (s : Snake) (es : List Event) : Reachable s → Reachable (handle_keys_aux s es).2
  | tick (s : Snake) (a : Cell) : Reachable s → Reachable (driverStep s a)
  | reset (s : Snake) : Reachable s → Reachable s.reset

/-! ### Field-preservation lemmas for the individual operations -/

@[simp]
lemma update_direction_position (s : Snake) : s.update_direction.position = s.position := by
  cases h : s.next_direction <;> simp [Snake.update_direction, h]

@[simp]
lemma update_direction_positions (s : Snake) : s.update_direction.positions = s.positions := by
  cases h : s.next_direction <;> simp [Snake.update_direction, h]

@[simp]
lemma update_direction_length (s : Snake) : s.update_direction.length = s.length := by
  cases h : s.next_direction <;> simp [Snake.update_direction, h]

@[simp]
lemma update_direction_speed (s : Snake) : s.update_direction.speed = s.speed := by
  cases h : s.next_direction <;> simp [Snake.update_direction, h]

@[simp]
lemma update_direction_game_over (s : Snake) : s.update_direction.game_over = s.game_over := by
  cases h : s.next_direction <;> simp [Snake.update_direction, h]

@[simp]
lemma update_direction_paused (s : Snake) : s.update_direction.paused = s.paused := by
  cases h : s.next_direction <;> simp [Snake.update_direction, h]

lemma update_direction_direction (s : Snake) :
    s.update_direction.direction = (s.next_direction).getD s.direction := by
  cases h : s.next_direction <;> simp [Snake.update_direction, h]

@[simp]
lemma is_game_over_position (s : Snake) (c : Cell) :
    (s.is_game_over c).position = s.position := by
  unfold Snake.is_game_over; split <;> rfl

@[simp]
lemma is_game_over_positions (s : Snake) (c : Cell) :
    (s.is_game_over c).positions = s.positions := by
  unfold Snake.is_game_over; split <;> rfl

@[simp]
lemma is_game_over_length (s : Snake) (c : Cell) :
    (s.is_game_over c).length = s.length := by
  unfold Snake.is_game_over; split <;> rfl

@[simp]
lemma is_game_over_speed (s : Snake) (c : Cell) :
    (s.is_game_over c).speed = s.speed := by
  unfold Snake.is_game_over; split <;> rfl

@[simp]
lemma is_game_over_paused (s : Snake) (c : Cell) :
    (s.is_game_over c).paused = s.paused := by
  unfold Snake.is_game_over; split <;> rfl

lemma is_game_over_flag (s : Snake) (c : Cell) :
    (s.is_game_over c).game_over = (decide (c ∈ s.positions.drop 2) || s.game_over) := by
  unfold Snake.is_game_over; split <;> simp [*]

@[simp]
lemma insert_next_position_position (s : Snake) (c : Cell) :
    (s.insert_next_position c).position = c := rfl

@[simp]
lemma insert_next_position_positions (s : Snake) (c : Cell) :
    (s.insert_next_position c).positions = c :: s.positions := rfl

@[simp]
lemma insert_next_position_length (s : Snake) (c : Cell) :
    (s.insert_next_position c).length = s.length := rfl

@[simp]
lemma insert_next_position_speed (s : Snake) (c : Cell) :
    (s.insert_next_position c).speed = s.speed := rfl

@[simp]
lemma insert_next_position_game_over (s : Snake) (c : Cell) :
    (s.insert_next_position c).game_over = s.game_over := rfl

@[simp]
lemma insert_next_position_paused (s : Snake) (c : Cell) :
    (s.insert_next_position c).paused = s.paused := rfl

@[simp]
lemma del_last_segment_position (s : Snake) : s.del_last_segment.position = s.position := by
  unfold Snake.del_last_segment; split <;> rfl

@[simp]
lemma del_last_segment_length (s : Snake) : s.del_last_segment.length = s.length := by
  unfold Snake.del_last_segment; split <;> rfl

@[simp]
lemma del_last_segment_speed (s : Snake) : s.del_last_segment.speed = s.speed := by
  unfold Snake.del_last_segment; split <;> rfl

@[simp]
lemma del_last_segment_game_over (s : Snake) : s.del_last_segment.game_over = s.game_over := by
  unfold Snake.del_last_segment; split <;> rfl

@[simp]
lemma del_last_segment_paused (s : Snake) : s.del_last_segment.paused = s.paused := by
  unfold Snake.del_last_segment; split <;> rfl

@[simp]
lemma eat_apple_position (s : Snake) : s.eat_apple.position = s.position := by
  unfold Snake.eat_apple; dsimp only; split <;> rfl

@[simp]
lemma eat_apple_positions (s : Snake) : s.eat_apple.positions = s.positions := by
  unfold Snake.eat_apple; dsimp only; split <;> rfl

@[simp]
lemma eat_apple_length (s : Snake) : s.eat_apple.length = s.length + 1 := by
  unfold Snake.eat_apple; dsimp only; split <;> rfl

@[simp]
lemma eat_apple_game_over (s : Snake) : s.eat_apple.game_over = s.game_over := by
  unfold Snake.eat_apple; dsimp only; split <;> rfl

@[simp]
lemma eat_apple_paused (s : Snake) : s.eat_apple.paused = s.paused := by
  unfold Snake.eat_apple; dsimp only; split <;> rfl

lemma eat_apple_speed (s : Snake) :
    s.eat_apple.speed = if s.speed < 100 then s.speed + 1 else s.speed := by
  unfold Snake.eat_apple; dsimp only; split <;> simp_all

/-- A list with at least two elements keeps its head when the last element
is dropped. -/
lemma dropLast_head_of_two_le {α : Type} (l : List α) (h : 2 ≤ l.length) :
    l.dropLast.head? = l.head? := by
  match l, h with
  | a :: b :: t, _ => simp [List.dropLast]

lemma driverStep_of_running (s : Snake) (a : Cell)
    (hgo : s.game_over = false) (hp : s.paused = false) :
    driverStep s a =
      (let m := s.move
       let s4 := ((m.1.is_game_over m.2).insert_next_position m.2).del_last_segment
       if s4.position = a then s4.eat_apple else s4) := by
  unfold driverStep
  simp [hgo, hp]

lemma driverStep_of_stopped (s : Snake) (a : Cell)
    (h : s.game_over = true ∨ s.paused = true) :
    driverStep s a = s := by
  unfold driverStep
  rcases h with h | h <;> simp [h]

/-! ### Lemmas about key handling -/

@[simp]
lemma apply_key_direction (s : Snake) (e : Event) :
    (apply_key s e).direction = s.direction := by
  cases e <;> simp only [apply_key, eventDir] <;> (try split) <;> rfl

@[simp]
lemma apply_key_position (s : Snake) (e : Event) :
    (apply_key s e).position = s.position := by
  cases e <;> simp only [apply_key, eventDir] <;> (try split) <;> rfl

@[simp]
lemma apply_key_positions (s : Snake) (e : Event) :
    (apply_key s e).positions = s.positions := by
  cases e <;> simp only [apply_key, eventDir] <;> (try split) <;> rfl

@[simp]
lemma apply_key_length (s : Snake) (e : Event) :
    (apply_key s e).length = s.length := by
  cases e <;> simp only [apply_key, eventDir] <;> (try split) <;> rfl

@[simp]
lemma apply_key_speed (s : Snake) (e : Event) :
    (apply_key s e).speed = s.speed := by
  cases e <;> simp only [apply_key, eventDir] <;> (try split) <;> rfl

@[simp]
lemma apply_key_game_over (s : Snake) (e : Event) :
    (apply_key s e).game_over = s.game_over := by
  cases e <;> simp only [apply_key, eventDir] <;> (try split) <;> rfl

lemma apply_key_next_direction_cases (s : Snake) (e : Event) :
    (apply_key s e).next_direction = s.next_direction ∨
    ∃ nd, direction_change_ok s.direction nd ∧ (apply_key s e).next_direction = some nd := by
  cases e
  case key_up =>
    simp only [apply_key, eventDir]
    split
    · exact Or.inr ⟨UP, by assumption, rfl⟩
    · exact Or.inl rfl
  case key_down =>
    simp only [apply_key, eventDir]
    split
    · exact Or.inr ⟨DOWN, by assumption, rfl⟩
    · exact Or.inl rfl
  case key_left =>
    simp only [apply_key, eventDir]
    split
    · exact Or.inr ⟨LEFT, by assumption, rfl⟩
    · exact Or.inl rfl
  case key_right =>
    simp only [apply_key, eventDir]
    split
    · exact Or.inr ⟨RIGHT, by assumption, rfl⟩
    · exact Or.inl rfl
  all_goals exact Or.inl rfl

lemma apply_key_dir_eq (s : Snake) (e : Event) (nd : Dir) (he : eventDir e = some nd) :
    apply_key s e =
      (if direction_change_ok s.direction nd then { s with next_direction := some nd }
       else s) := by
  cases e <;> simp_all [eventDir, apply_key]

lemma handle_keys_aux_preserves (es : List Event) (s : Snake) :
    (handle_keys_aux s es).2.position = s.position ∧
    (handle_keys_aux s es).2.positions = s.positions ∧
    (handle_keys_aux s es).2.length = s.length ∧
    (handle_keys_aux s es).2.speed = s.speed ∧
    (handle_keys_aux s es).2.direction = s.direction ∧
    (handle_keys_aux s es).2.game_over = s.game_over := by
  induction es generalizing s with
  | nil => exact ⟨rfl, rfl, rfl, rfl, rfl, rfl⟩
  | cons e rest ih =>
    cases e
    case quit => exact ⟨rfl, rfl, rfl, rfl, rfl, rfl⟩
    all_goals
      simp only [handle_keys_aux]
      exact ⟨(ih _).1.trans (by simp), (ih _).2.1.trans (by simp),
             (ih _).2.2.1.trans (by simp), (ih _).2.2.2.1.trans (by simp),
             (ih _).2.2.2.2.1.trans (by simp), (ih _).2.2.2.2.2.trans (by simp)⟩

lemma direction_change_ok_ne_opposite {dir nd : Dir} (h : direction_change_ok dir nd) :
    nd ≠ opposite dir := by
  rcases h with ⟨rfl, hn⟩ | ⟨rfl, hn⟩ | ⟨rfl, hn⟩ | ⟨rfl, hn⟩ <;>
    simpa [opposite, UP, DOWN, LEFT, RIGHT] using hn

lemma direction_change_ok_of_ne {dir nd : Dir} (hdir : dir ∈ dirList)
    (hnd : nd ∈ dirList) (h : nd ≠ opposite dir) : direction_change_ok dir nd := by
  simp only [dirList, List.mem_cons, List.not_mem_nil, or_false] at hdir hnd
  rcases hdir with rfl | rfl | rfl | rfl <;> rcases hnd with rfl | rfl | rfl | rfl <;>
    revert h <;> decide

lemma eventDir_mem {e : Event} {nd : Dir} (he : eventDir e = some nd) : nd ∈ dirList := by
  cases e <;> simp_all [eventDir, dirList]

lemma mem_dirList_ne_opposite {d : Dir} (h : d ∈ dirList) : d ≠ opposite d := by
  fin_cases h <;> decide

lemma next_direction_step_ne (s : Snake) (e : Event) (d : Dir) (hd : s.direction = d)
    (hpend : s.next_direction ≠ some (opposite d)) :
    (apply_key s e).next_direction ≠ some (opposite d) := by
  rcases apply_key_next_direction_cases s e with h | ⟨nd, hok, h⟩
  · rw [h]; exact hpend
  · rw [h]
    intro hc
    rw [hd] at hok
    exact direction_change_ok_ne_opposite hok (Option.some.inj hc)

lemma handle_keys_next_direction_ne (es : List Event) (s : Snake) (d : Dir)
    (hd : s.direction = d)
    (hpend : s.next_direction ≠ some (opposite d)) :
    (handle_keys_aux s es).2.next_direction ≠ some (opposite d) := by
  induction es generalizing s with
  | nil => exact hpend
  | cons e rest ih =>
    cases e
    case quit => exact hpend
    all_goals
      simp only [handle_keys_aux]
      exact ih _ ((apply_key_direction s _).trans hd)
        (next_direction_step_ne s _ d hd hpend)

/-! ### Wrap-around arithmetic -/

lemma pixel_wrap (a b M G : ℤ) (hG : 0 < G) :
    (a * G + b * G) % (G * M) = ((a + b) % M) * G := by
  rw [← add_mul, mul_comm (a + b) G, Int.mul_emod_mul_of_pos _ _ hG, mul_comm]

/-! ### The driver-step invariant and reachability -/

/-- Invariant maintained by every operation of the driver loop: the scalar
position mirrors the head of the body list, the target length is at least
one, and the speed never exceeds 100. -/
def Inv (s : Snake) : Prop :=
  s.positions.head? = some s.position ∧ 1 ≤ s.length ∧ s.speed ≤ 100

lemma inv_init : Inv Snake.init := by
  refine ⟨rfl, le_refl 1, ?_⟩
  show SPEED ≤ 100
  decide

lemma inv_handle_keys (es : List Event) (s : Snake) (h : Inv s) :
    Inv (handle_keys_aux s es).2 := by
  obtain ⟨hp, hps, hl, hsp, _, _⟩ := handle_keys_aux_preserves es s
  exact ⟨by rw [hp, hps]; exact h.1, by rw [hl]; exact h.2.1, by rw [hsp]; exact h.2.2⟩

lemma inv_reset (s : Snake) (h : Inv s) : Inv s.reset :=
  ⟨rfl, le_refl 1, h.2.2⟩

lemma del_last_segment_head (s : Snake) (hlen : 1 ≤ s.length)
    (hh : s.positions.head? = some s.position) :
    s.del_last_segment.positions.head? = some s.del_last_segment.position := by
  unfold Snake.del_last_segment
  split
  case isTrue hgt =>
    have h2 : 2 ≤ s.positions.length := by omega
    simpa [dropLast_head_of_two_le s.positions h2] using hh
  case isFalse _ => exact hh

@[simp]
lemma move_fst (s : Snake) : (s.move).1 = s.update_direction := rfl

lemma bool_eq_false (b : Bool) (h : b ≠ true) : b = false := by
  cases b
  · rfl
  · exact absurd rfl h

lemma inv_driverStep (s : Snake) (a : Cell) (h : Inv s) : Inv (driverStep s a) := by
  by_cases hstop : s.game_over = true ∨ s.paused = true
  · rw [driverStep_of_stopped s a hstop]; exact h
  · push_neg at hstop
    have hgo : s.game_over = false := bool_eq_false _ hstop.1
    have hp : s.paused = false := bool_eq_false _ hstop.2
    rw [driverStep_of_running s a hgo hp]
    dsimp only
    have hs3head :
        (((s.move).1.is_game_over (s.move).2).insert_next_position (s.move).2).positions.head? =
          some (((s.move).1.is_game_over (s.move).2).insert_next_position (s.move).2).position := by
      simp
    have hs3len :
        1 ≤ (((s.move).1.is_game_over (s.move).2).insert_next_position (s.move).2).length := by
      simpa using h.2.1
    have hs3speed :
        (((s.move).1.is_game_over (s.move).2).insert_next_position (s.move).2).speed ≤ 100 := by
      simpa using h.2.2
    have h4 : Inv ((((s.move).1.is_game_over (s.move).2).insert_next_position
        (s.move).2).del_last_segment) := by
      refine ⟨del_last_segment_head _ hs3len hs3head, ?_, ?_⟩
      · simpa using hs3len
      · simpa using hs3speed
    split
    · refine ⟨?_, ?_, ?_⟩
      · rw [eat_apple_positions, eat_apple_position]; exact h4.1
      · rw [eat_apple_length]; omega
      · rw [eat_apple_speed]
        split
        · have := h4.2.2; omega
        · exact h4.2.2
    · exact h4

lemma reachable_inv (s : Snake) (h : Reachable s) : Inv s := by
  induction h with
  | init => exact inv_init
  | handle s es _ ih => exact inv_handle_keys es s ih
  | tick s a _ ih => exact inv_driverStep s a ih
  | reset s _ ih => exact inv_reset s ih

lemma driverStep_speed_cases (s : Snake) (a : Cell) :
    (driverStep s a).speed = s.speed ∨
    (s.speed < 100 ∧ (driverStep s a).speed = s.speed + 1) := by
  by_cases hstop : s.game_over = true ∨ s.paused = true
  · rw [driverStep_of_stopped s a hstop]; exact Or.inl rfl
  · push_neg at hstop
    have hgo : s.game_over = false := bool_eq_false _ hstop.1
    have hp : s.paused = false := bool_eq_false _ hstop.2
    rw [driverStep_of_running s a hgo hp]
    dsimp only
    have hsp :
        (((s.move).1.is_game_over (s.move).2).insert_next_position
          (s.move).2).del_last_segment.speed = s.speed := by
      simp
    split
    · rw [eat_apple_speed, hsp]
      split
      · next hlt => exact Or.inr ⟨hlt, rfl⟩
      · exact Or.inl rfl
    · exact Or.inl hsp

/-! ### Claim theorems -/

/-- C4: in a step from a state the driver may step (flag still false), if
the computed next head lies in the body at index 2 or beyond the flag
becomes true, and if it does not (in particular when it equals only the
current head or the cell immediately behind it) the flag stays false. -/
theorem self_collision_flag (s : Snake) (hgo : s.game_over = false) :
    ((s.move).2 ∈ s.positions.drop 2 →
      ((s.move).1.is_game_over (s.move).2).game_over = true) ∧
    ((s.move).2 ∉ s.positions.drop 2 →
      ((s.move).1.is_game_over (s.move).2).game_over = false) := by
  constructor <;> intro h <;> rw [is_game_over_flag] <;> simp [h, hgo]

/-- Witness for C4: the reachable pre-collision state sH does set the flag. -/
theorem self_collision_flag_witness :
    ((sH.move).1.is_game_over (sH.move).2).game_over = true :=
  (self_collision_flag sH (by decide)).1 (by decide)

/-- C5: starting from a committed direction among the four and a pending
request that is not its reverse, no event sequence can store the reverse
as the pending direction, the direction committed at the next step is
never the reverse, and any single direction-key event whose direction is
not the reverse is accepted into the pending slot. -/
theorem no_reverse_invariant (s : Snake) (es : List Event)
    (hdir : s.direction ∈ dirList)
    (hpend : s.next_direction ≠ some (opposite s.direction)) :
    (handle_keys_aux s es).2.next_direction ≠ some (opposite s.direction) ∧
    ((handle_keys_aux s es).2.update_direction).direction ≠ opposite s.direction ∧
    (∀ e nd, eventDir e = some nd → nd ≠ opposite s.direction →
      (apply_key s e).next_direction = some nd) := by
  have h1 := handle_keys_next_direction_ne es s s.direction rfl hpend
  refine ⟨h1, ?_, ?_⟩
  · rw [update_direction_direction]
    cases hnd : (handle_keys_aux s es).2.next_direction with
    | none =>
      rw [Option.getD_none, (handle_keys_aux_preserves es s).2.2.2.2.1]
      exact mem_dirList_ne_opposite hdir
    | some nd =>
      rw [Option.getD_some]
      intro hc
      rw [hnd, hc] at h1
      exact h1 rfl
  · intro e nd he hne
    rw [apply_key_dir_eq s e nd he,
      if_pos (direction_change_ok_of_ne hdir (eventDir_mem he) hne)]

/-- Witness for C5: from the initial state (RIGHT), a LEFT press is ignored
and an UP press is accepted. -/
theorem no_reverse_invariant_witness :
    (handle_keys_aux Snake.init [Event.key_left]).2.next_direction ≠
      some (opposite Snake.init.direction) ∧
    ((handle_keys_aux Snake.init [Event.key_left]).2.update_direction).direction ≠
      opposite Snake.init.direction ∧
    (∀ e nd, eventDir e = some nd → nd ≠ opposite Snake.init.direction →
      (apply_key Snake.init e).next_direction = some nd) :=
  no_reverse_invariant Snake.init [Event.key_left] (by decide) (by decide)

/-- C6: from a cell-aligned head, a step moves exactly one cell in the
committed direction under modular arithmetic on the 32-by-24 cell grid,
and the resulting pixel coordinate stays inside the screen.  This holds
for an arbitrary integer direction vector, hence in particular for the
four unit directions; the wrap case (W-1, y) moving RIGHT to (0, y) is
the witness below. -/
theorem wrap_move (s : Snake) (cx cy : ℤ) (d : Dir)
    (hpos : s.position = (cx * GRID_SIZE, cy * GRID_SIZE))
    (hdir : s.update_direction.direction = d) :
    (s.move).2 = (((cx + d.1) % GRID_WIDTH) * GRID_SIZE,
                  ((cy + d.2) % GRID_HEIGHT) * GRID_SIZE) ∧
    0 ≤ (cx + d.1) % GRID_WIDTH ∧ (cx + d.1) % GRID_WIDTH < GRID_WIDTH ∧
    0 ≤ (cy + d.2) % GRID_HEIGHT ∧ (cy + d.2) % GRID_HEIGHT < GRID_HEIGHT ∧
    0 ≤ (s.move).2.1 ∧ (s.move).2.1 < SCREEN_WIDTH ∧
    0 ≤ (s.move).2.2 ∧ (s.move).2.2 < SCREEN_HEIGHT := by
  have hup : s.update_direction.position = s.position := update_direction_position s
  have hx : (s.move).2.1 = (cx * GRID_SIZE + d.1 * GRID_SIZE) % SCREEN_WIDTH := by
    show (s.update_direction.position.1 + s.update_direction.direction.1 * GRID_SIZE) %
        SCREEN_WIDTH = _
    rw [hup, hpos, hdir]
  have hy : (s.move).2.2 = (cy * GRID_SIZE + d.2 * GRID_SIZE) % SCREEN_HEIGHT := by
    show (s.update_direction.position.2 + s.update_direction.direction.2 * GRID_SIZE) %
        SCREEN_HEIGHT = _
    rw [hup, hpos, hdir]
  have hW : SCREEN_WIDTH = GRID_SIZE * GRID_WIDTH := by decide
  have hH : SCREEN_HEIGHT = GRID_SIZE * GRID_HEIGHT := by decide
  have hGpos : (0 : ℤ) < GRID_SIZE := by decide
  have ex : (s.move).2.1 = ((cx + d.1) % GRID_WIDTH) * GRID_SIZE := by
    rw [hx, hW, pixel_wrap cx d.1 GRID_WIDTH GRID_SIZE hGpos]
  have ey : (s.move).2.2 = ((cy + d.2) % GRID_HEIGHT) * GRID_SIZE := by
    rw [hy, hH, pixel_wrap cy d.2 GRID_HEIGHT GRID_SIZE hGpos]
  have bx0 : 0 ≤ (cx + d.1) % GRID_WIDTH :=
    Int.emod_nonneg _ (by decide)
  have bx1 : (cx + d.1) % GRID_WIDTH < GRID_WIDTH :=
    Int.emod_lt_of_pos _ (by decide)
  have by0 : 0 ≤ (cy + d.2) % GRID_HEIGHT :=
    Int.emod_nonneg _ (by decide)
  have by1 : (cy + d.2) % GRID_HEIGHT < GRID_HEIGHT :=
    Int.emod_lt_of_pos _ (by decide)
  have hW32 : GRID_WIDTH = 32 := by decide
  have hH24 : GRID_HEIGHT = 24 := by decide
  have hG20 : GRID_SIZE = 20 := by decide
  have hSW : SCREEN_WIDTH = 640 := by decide
  have hSH : SCREEN_HEIGHT = 480 := by decide
  refine ⟨?_, bx0, bx1, by0, by1, ?_, ?_, ?_, ?_⟩
  · ext1
    · exact ex
    · exact ey
  · rw [ex, hG20, hW32]
    rw [hW32] at bx0
    omega
  · rw [ex, hG20, hSW, hW32]
    rw [hW32] at bx1 bx0
    omega
  · rw [ey, hG20, hH24]
    rw [hH24] at by0
    omega
  · rw [ey, hG20, hSH, hH24]
    rw [hH24] at by1 by0
    omega

/-- A snake whose head sits on the last cell of a row, heading RIGHT. -/
def sWrap : Snake :=
  { position := (620, 240)
    speed := 20
    paused := false
    game_over := false
    direction := RIGHT
    next_direction := none
    length := 1
    positions := [(620, 240)]
    last := none }

/-- Witness for C6: the head at cell (31, 12) — the last column — moving
RIGHT wraps to column 0. -/
theorem wrap_move_witness :
    (sWrap.move).2 = (((31 + RIGHT.1) % GRID_WIDTH) * GRID_SIZE,
                      ((12 + RIGHT.2) % GRID_HEIGHT) * GRID_SIZE) ∧
    0 ≤ (31 + RIGHT.1) % GRID_WIDTH ∧ (31 + RIGHT.1) % GRID_WIDTH < GRID_WIDTH ∧
    0 ≤ (12 + RIGHT.2) % GRID_HEIGHT ∧ (12 + RIGHT.2) % GRID_HEIGHT < GRID_HEIGHT ∧
    0 ≤ (sWrap.move).2.1 ∧ (sWrap.move).2.1 < SCREEN_WIDTH ∧
    0 ≤ (sWrap.move).2.2 ∧ (sWrap.move).2.2 < SCREEN_HEIGHT :=
  wrap_move sWrap 31 12 RIGHT (by decide) (by decide)

lemma del_last_segment_of_le (s : Snake) (h : s.positions.length ≤ s.length) :
    s.del_last_segment = s := by
  unfold Snake.del_last_segment
  rw [if_neg (by omega)]

/-- C7: the eat-food branch leaves the live body untouched at that moment,
and the very next driver step grows the live body by exactly one cell,
because the tail is only popped when the live length exceeds the target. -/
theorem growth_delay (s : Snake) (apple : Cell)
    (hlen : s.positions.length = s.length)
    (hgo : s.game_over = false) (hp : s.paused = false) :
    s.eat_apple.positions = s.positions ∧
    (driverStep s.eat_apple apple).positions.length = s.positions.length + 1 := by
  refine ⟨eat_apple_positions s, ?_⟩
  have hgo2 : s.eat_apple.game_over = false := by rw [eat_apple_game_over]; exact hgo
  have hp2 : s.eat_apple.paused = false := by rw [eat_apple_paused]; exact hp
  rw [driverStep_of_running _ _ hgo2 hp2]
  dsimp only
  have hpos3 :
      (((s.eat_apple.move).1.is_game_over (s.eat_apple.move).2).insert_next_position
        (s.eat_apple.move).2).positions = (s.eat_apple.move).2 :: s.positions := by
    simp
  have hlen3 :
      (((s.eat_apple.move).1.is_game_over (s.eat_apple.move).2).insert_next_position
        (s.eat_apple.move).2).length = s.length + 1 := by
    simp
  have hdel :
      (((s.eat_apple.move).1.is_game_over (s.eat_apple.move).2).insert_next_position
        (s.eat_apple.move).2).del_last_segment =
      (((s.eat_apple.move).1.is_game_over (s.eat_apple.move).2).insert_next_position
        (s.eat_apple.move).2) := by
    apply del_last_segment_of_le
    rw [hpos3, hlen3]
    simp [hlen]
  rw [hdel]
  split
  · rw [eat_apple_positions, hpos3]
    simp
  · rw [hpos3]
    simp

/-- Witness for C7: eating from the initial state grows the body from one
cell to two over the next step. -/
theorem growth_delay_witness :
    Snake.init.eat_apple.positions = Snake.init.positions ∧
    (driverStep Snake.init.eat_apple (0, 0)).positions.length =
      Snake.init.positions.length + 1 :=
  growth_delay Snake.init (0, 0) rfl rfl rfl

/-- C8: on every reachable state the speed is at most the cap 100 = 5 times
the base rate 20, it is still at most 100 after any further tick, a tick
never decreases it, key handling never changes it, and `reset` leaves it
untouched. -/
theorem speed_cap (s : Snake) (h : Reachable s) (apple : Cell) (es : List Event) :
    s.speed ≤ 100 ∧ (driverStep s apple).speed ≤ 100 ∧
    s.speed ≤ (driverStep s apple).speed ∧
    (handle_keys_aux s es).2.speed = s.speed ∧
    s.reset.speed = s.speed := by
  refine ⟨(reachable_inv s h).2.2, (reachable_inv _ (Reachable.tick s apple h)).2.2, ?_,
    (handle_keys_aux_preserves es s).2.2.2.1, rfl⟩
  rcases driverStep_speed_cases s apple with h1 | ⟨_, h1⟩ <;> omega

/-- Witness for C8 at the initial state. -/
theorem speed_cap_witness :
    Snake.init.speed ≤ 100 ∧ (driverStep Snake.init (0, 0)).speed ≤ 100 ∧
    Snake.init.speed ≤ (driverStep Snake.init (0, 0)).speed ∧
    (handle_keys_aux Snake.init []).2.speed = Snake.init.speed ∧
    Snake.init.reset.speed = Snake.init.speed :=
  speed_cap Snake.init Reachable.init (0, 0) []

/-- C10: on every reachable state the scalar `position` field equals the
first element of the `positions` list, so the head query and the
food-coincidence check refer to the same cell. -/
theorem head_field_sync (s : Snake) (h : Reachable s) :
    s.get_head_position = some s.position :=
  (reachable_inv s h).1

/-- Witness for C10 at the initial state. -/
theorem head_field_sync_witness :
    Snake.init.get_head_position = some Snake.init.position :=
  head_field_sync Snake.init Reachable.init

/-! ### Food placement -/

lemma mem_gridCells {x y : ℤ} (hx0 : 0 ≤ x) (hx1 : x < GRID_WIDTH)
    (hy0 : 0 ≤ y) (hy1 : y < GRID_HEIGHT) :
    (x * GRID_SIZE, y * GRID_SIZE) ∈ gridCells := by
  have hW : GRID_WIDTH = 32 := by decide
  have hH : GRID_HEIGHT = 24 := by decide
  have hWn : GRID_WIDTH.toNat = 32 := by decide
  have hHn : GRID_HEIGHT.toNat = 24 := by decide
  rw [hW] at hx1
  rw [hH] at hy1
  have h1 : x.toNat ∈ List.range GRID_WIDTH.toNat := by
    rw [List.mem_range, hWn]
    omega
  have h2 : y.toNat ∈ List.range GRID_HEIGHT.toNat := by
    rw [List.mem_range, hHn]
    omega
  have h3 : ((x * GRID_SIZE, y * GRID_SIZE) : Cell) =
      ((x.toNat : ℤ) * GRID_SIZE, (y.toNat : ℤ) * GRID_SIZE) := by
    rw [Int.toNat_of_nonneg hx0, Int.toNat_of_nonneg hy0]
  rw [h3]
  unfold gridCells
  exact List.mem_flatMap.mpr ⟨x.toNat, h1, List.mem_map.mpr ⟨y.toNat, h2, rfl⟩⟩

/-- Core of the full-grid analysis, shared by the C3 theorems: when the
occupied list covers the whole grid and the draws respect the randint
ranges, the rejection loop makes no progress at any iteration bound. -/
lemma gen_none_of_full (snake : List Cell) (draws : ℕ → ℤ × ℤ) (k fuel : ℕ)
    (hr : ∀ j, 0 ≤ (draws j).1 ∧ (draws j).1 < GRID_WIDTH ∧
               0 ≤ (draws j).2 ∧ (draws j).2 < GRID_HEIGHT)
    (hfull : ∀ c ∈ gridCells, c ∈ snake) :
    generate_new_position snake draws k fuel = none := by
  induction fuel generalizing k with
  | zero => rfl
  | succ n ih =>
    unfold generate_new_position
    dsimp only
    rw [if_pos]
    · exact ih (k + 1)
    · exact hfull _ (mem_gridCells (hr k).1 (hr k).2.1 (hr k).2.2.1 (hr k).2.2.2)

lemma constDraws_ranges :
    ∀ j, 0 ≤ (constDraws j).1 ∧ (constDraws j).1 < GRID_WIDTH ∧
         0 ≤ (constDraws j).2 ∧ (constDraws j).2 < GRID_HEIGHT := by
  intro j
  show (0 : ℤ) ≤ 0 ∧ (0 : ℤ) < GRID_WIDTH ∧ (0 : ℤ) ≤ 0 ∧ (0 : ℤ) < GRID_HEIGHT
  decide

/-! ### Reachability of the concrete trace -/

lemma reachable_sH : Reachable sH :=
  Reachable.handle sG [Event.key_up]
    (Reachable.tick sF (0, 0)
      (Reachable.handle sE [Event.key_left]
        (Reachable.tick sD (0, 0)
          (Reachable.handle sC [Event.key_down]
            (Reachable.tick sB (380, 240)
              (Reachable.tick sA (360, 240)
                (Reachable.tick Snake.init (340, 240) Reachable.init)))))))

lemma reachable_sI : Reachable sI :=
  Reachable.tick sH (0, 0) reachable_sH

lemma del_last_segment_head_of_two_le (s : Snake) (h2 : 2 ≤ s.positions.length) :
    s.del_last_segment.positions.head? = s.positions.head? := by
  unfold Snake.del_last_segment
  split
  · simpa using dropLast_head_of_two_le s.positions h2
  · rfl

/-- C1 (amended): when a step detects self-collision the game-over flag is
set, but the step does not stop: the colliding next head still becomes the
scalar position and the new list head (and the tail is still trimmed), so
the pre-step body is mutated; only the following ticks leave the state
unchanged, because of the driver guard on the flag. -/
theorem step_on_collision_mutates (s : Snake) (apple : Cell)
    (hgo : s.game_over = false) (hp : s.paused = false)
    (hcol : (s.move).2 ∈ s.positions.drop 2) :
    (driverStep s apple).game_over = true ∧
    (driverStep s apple).position = (s.move).2 ∧
    (driverStep s apple).positions.head? = some (s.move).2 ∧
    ∀ a2 : Cell, driverStep (driverStep s apple) a2 = driverStep s apple := by
  have h3 : 3 ≤ s.positions.length := by
    by_contra hlt
    push_neg at hlt
    have hnil : s.positions.drop 2 = [] := List.drop_eq_nil_of_le (by omega)
    rw [hnil] at hcol
    exact (List.not_mem_nil _) hcol
  have hmpos : (s.move).1.positions = s.positions := by simp
  have hflag :
      (((s.move).1.is_game_over (s.move).2).insert_next_position (s.move).2).game_over =
        true := by
    rw [insert_next_position_game_over, is_game_over_flag, hmpos]
    simp [hcol]
  have hr_go : (driverStep s apple).game_over = true := by
    rw [driverStep_of_running s apple hgo hp]
    dsimp only
    split
    · rw [eat_apple_game_over, del_last_segment_game_over]
      exact hflag
    · rw [del_last_segment_game_over]
      exact hflag
  have hr_pos : (driverStep s apple).position = (s.move).2 := by
    rw [driverStep_of_running s apple hgo hp]
    dsimp only
    split
    · rw [eat_apple_position, del_last_segment_position, insert_next_position_position]
    · rw [del_last_segment_position, insert_next_position_position]
  have h2le :
      2 ≤ (((s.move).1.is_game_over (s.move).2).insert_next_position
        (s.move).2).positions.length := by
    rw [insert_next_position_positions, List.length_cons, is_game_over_positions, hmpos]
    omega
  have hr_head : (driverStep s apple).positions.head? = some (s.move).2 := by
    rw [driverStep_of_running s apple hgo hp]
    dsimp only
    split
    · rw [eat_apple_positions, del_last_segment_head_of_two_le _ h2le]
      simp
    · rw [del_last_segment_head_of_two_le _ h2le]
      simp
  exact ⟨hr_go, hr_pos, hr_head, fun a2 => driverStep_of_stopped _ a2 (Or.inl hr_go)⟩

/-- Witness for the amended C1 at the concrete reachable colliding state. -/
theorem step_on_collision_mutates_witness :
    (driverStep sH (0, 0)).game_over = true ∧
    (driverStep sH (0, 0)).position = (sH.move).2 ∧
    (driverStep sH (0, 0)).positions.head? = some (sH.move).2 ∧
    ∀ a2 : Cell, driverStep (driverStep sH (0, 0)) a2 = driverStep sH (0, 0) :=
  step_on_collision_mutates sH (0, 0) (by decide) (by decide) (by decide)

/-- Counterexample to C1 as stated: at the reachable state sH the next step
detects self-collision and sets the flag, yet the body list, the scalar
head position and the lastRemovedCell all differ from their pre-step
values. -/
theorem collision_step_counterexample :
    Reachable sH ∧
    sH.game_over = false ∧
    (sH.move).2 ∈ sH.positions.drop 2 ∧
    (driverStep sH (0, 0)).game_over = true ∧
    (driverStep sH (0, 0)).positions ≠ sH.positions ∧
    (driverStep sH (0, 0)).position ≠ sH.position ∧
    (driverStep sH (0, 0)).last ≠ sH.last :=
  ⟨reachable_sH, by decide, by decide, by decide, by decide, by decide, by decide⟩

/-- C2 (code bug): at the reachable game-over state sI, `reset` leaves the
game-over flag true and rebuilds the body from the current head cell
(360, 240) instead of the grid center (the initial position), contradicting
both the claim and the method's own docstring; the length, direction and
last fields are the only parts behaving as claimed. -/
theorem reset_bug :
    Reachable sI ∧ sI.game_over = true ∧
    sI.reset.game_over = true ∧
    sI.reset.positions ≠ [Snake.init.position] ∧
    sI.reset.positions = [sI.position] ∧
    sI.reset.length = 1 ∧ sI.reset.direction = RIGHT ∧ sI.reset.last = none :=
  ⟨reachable_sI, by decide, by decide, by decide, by decide, by decide, by decide,
    by decide⟩

/-- C3 (amended): on a fully-occupied grid `generate_new_position` never
returns a cell — the rejection-sampling loop makes no progress at any
iteration bound, for any draw stream within the randint ranges — and the
source has no failure-reporting path at all, so no `NoFreeCellError` (or
any other value) is produced; no state is mutated either, the loop only
draws. -/
theorem gen_full_grid_never_returns (snake : List Cell) (draws : ℕ → ℤ × ℤ)
    (k fuel : ℕ)
    (hr : ∀ j, 0 ≤ (draws j).1 ∧ (draws j).1 < GRID_WIDTH ∧
               0 ≤ (draws j).2 ∧ (draws j).2 < GRID_HEIGHT)
    (hfull : ∀ c ∈ gridCells, c ∈ snake) :
    generate_new_position snake draws k fuel = none :=
  gen_none_of_full snake draws k fuel hr hfull

/-- Witness for the amended C3 on the concrete full grid. -/
theorem gen_full_grid_never_returns_witness :
    generate_new_position gridCells constDraws 0 5 = none :=
  gen_full_grid_never_returns gridCells constDraws 0 5 constDraws_ranges
    (fun _ hc => hc)

/-- Counterexample to C3 as stated: on the fully-occupied grid the
spec-side model reports `NoFreeCellError`, but the source loop never
produces any outcome there — it neither returns a cell nor reports a
failure, at every iteration bound. -/
theorem placeAvoiding_full_grid_gap :
    placeAvoidingSpec gridCells = PlaceResult.noFreeCellError ∧
    ∀ k fuel, generate_new_position gridCells constDraws k fuel = none := by
  constructor
  · unfold placeAvoidingSpec
    rw [dif_pos (fun c hc => hc)]
  · intro k fuel
    exact gen_none_of_full gridCells constDraws k fuel constDraws_ranges (fun _ hc => hc)

/-- C9: whenever `generate_new_position` returns a cell, that cell is a
cell of the grid and is not in the occupied list it was given.  The
claim's premise that the occupied set does not cover the grid is recorded
as `_hfree`, though the returned-cell property holds without using it. -/
theorem food_disjointness (snake : List Cell) (draws : ℕ → ℤ × ℤ)
    (k fuel : ℕ) (c : Cell)
    (hr : ∀ j, 0 ≤ (draws j).1 ∧ (draws j).1 < GRID_WIDTH ∧
               0 ≤ (draws j).2 ∧ (draws j).2 < GRID_HEIGHT)
    ( _hfree : ∃ g ∈ gridCells, g ∉ snake)
    (hret : generate_new_position snake draws k fuel = some c) :
    c ∈ gridCells ∧ c ∉ snake := by
  induction fuel generalizing k with
  | zero =>
    exact absurd hret (by simp [generate_new_position])
  | succ n ih =>
    unfold generate_new_position at hret
    dsimp only at hret
    split at hret
    · exact ih (k + 1) hret
    · next hnotin =>
      have hc : ((draws k).1 * GRID_SIZE, (draws k).2 * GRID_SIZE) = c :=
        Option.some.inj hret
      subst hc
      exact ⟨mem_gridCells (hr k).1 (hr k).2.1 (hr k).2.2.1 (hr k).2.2.2, hnotin⟩

/-- Witness for C9: with nothing occupied, the first draw is returned and
is a free grid cell. -/
theorem food_disjointness_witness :
    ((0 : ℤ) * GRID_SIZE, (0 : ℤ) * GRID_SIZE) ∈ gridCells ∧
    ((0 : ℤ) * GRID_SIZE, (0 : ℤ) * GRID_SIZE) ∉ ([] : List Cell) :=
  food_disjointness [] constDraws 0 1 ((0 : ℤ) * GRID_SIZE, (0 : ℤ) * GRID_SIZE)
    constDraws_ranges
    ⟨((0 : ℤ) * GRID_SIZE, (0 : ℤ) * GRID_SIZE),
      mem_gridCells (le_refl 0) (by decide) (le_refl 0) (by decide), by simp⟩
    (by decide)

end SnakeGame
